import Mathlib

/-
Verification development for the paginated JSON export pipeline of the
archi-site repository (src/scripts/json-export.py, function
export_architecture_data).

The script reads rows from a SQLite table ordered by primary key, normalizes
each row (placeholder substitution for missing title/architect/address,
suppression of non-positive years), writes fixed-size pages page_<n>.json,
builds a five-facet inverted search index over all normalized records, and
writes a metadata manifest.  The shallow embedding below models:

  - the ordered sequence of raw rows returned by the SELECT ... ORDER BY Z_PK
    query as a Lean list of RawRow values (SQL NULL becomes Option.none,
    floating-point columns are carried as an abstract payload type F because
    the script never computes with them, only copies them);
  - Python string operations at the code-point level: str.lower via
    Char.toLower on each code point (agrees with Python on ASCII and on
    un-cased scripts such as Japanese), str.split() via an explicit
    whitespace-run splitter that discards empty tokens, slicing s[:n] via
    taking the first n code points, len via the code-point count;
  - Python truthiness: a string is falsy iff empty, an Option is falsy iff
    none, an integer is falsy iff zero;
  - Python dicts (insertion-ordered) as association lists, with the
    check-then-append idiom of the script embedded in addToIndex;
  - file writes as the pairing of a file name with the structured content
    the script passes to json.dump; json.dump with fixed options
    (ensure_ascii=False, fixed separators or indent) is a deterministic
    function of that content, so content equality models byte equality;
  - the try/except/finally control flow of the script as an explicit
    outcome environment (which step, if any, raises first) together with a
    count of conn.close() executions.
-/

namespace ArchiSite

/-! ## Python string primitives, modeled at the code-point level -/

/-- Model of Python str.lower(): lower-case every code point.  Char.toLower
handles the ASCII range and leaves every other code point unchanged, which
agrees with Python on the ASCII and Japanese text this pipeline processes. -/
def pyLower (s : String) : String := ⟨s.data.map Char.toLower⟩

/-- Model of Python slicing s[:n]: the first n code points. -/
def pyTake (s : String) (n : Nat) : String := ⟨s.data.take n⟩

/-- Model of Python len(s): the number of code points. -/
def pyLen (s : String) : Nat := s.data.length

/-- Accumulator-based splitter behind pySplit: walks the code points,
breaking at whitespace and emitting the (reversed) accumulated token when
one is pending, so that runs of whitespace produce no empty tokens. -/
def splitWSAux : List Char → List Char → List String
  | [], acc => if acc.isEmpty then [] else [(⟨acc.reverse⟩ : String)]
  | c :: cs, acc =>
    if c.isWhitespace then
      (if acc.isEmpty then [] else [(⟨acc.reverse⟩ : String)]) ++ splitWSAux cs []
    else
      splitWSAux cs (c :: acc)

/-- Model of Python str.split() with no argument: split on runs of
whitespace, discarding empty tokens. -/
def pySplit (s : String) : List String := splitWSAux s.data []

/-- Model of the Python idiom "value or placeholder" on an optional string
column: substitute the placeholder exactly when the value is falsy, that is
NULL (none) or the empty string. -/
def pyOr (v : Option String) (ph : String) : String :=
  match v with
  | none => ph
  | some s => if s = "" then ph else s

/-! ## Data model

RawRow is one row of the ZCDARCHITECTURE query result (json-export.py lines
52-74), with SQL NULL as none.  The latitude/longitude columns are REAL; the
script only copies them into the output record, so they are carried as an
abstract payload type F (instantiated with Int in concrete examples). -/

structure RawRow (F : Type) where
  id : Int
  title : Option String
  architect : Option String
  year : Option Int
  address : Option String
  latitude : Option F
  longitude : Option F
  category : Option String
  big_category : Option String
  description : Option String
  image_url : Option String
  tags : Option String
  prefecture : Option String
  contractor : Option String
  structural_designer : Option String
  landscape_designer : Option String
  shinkenchiku_url : Option String
deriving Repr

/-- Item is the normalized output record built at json-export.py lines
80-98: title/architect/address are always strings after placeholder
substitution, year is optional, everything else is copied verbatim. -/
structure Item (F : Type) where
  id : Int
  title : String
  architect : String
  year : Option Int
  address : String
  latitude : Option F
  longitude : Option F
  category : Option String
  big_category : Option String
  description : Option String
  image_url : Option String
  tags : Option String
  prefecture : Option String
  contractor : Option String
  structural_designer : Option String
  landscape_designer : Option String
  shinkenchiku_url : Option String
deriving Repr

variable {F : Type}

/-- Record normalizer, json-export.py lines 80-98.  The three text fields use
the Python "or" idiom with the fixed Japanese placeholder strings; the year
is kept only when truthy (nonzero) and strictly positive, mirroring
  row["year"] if row["year"] and row["year"] > 0 else None;
every other column is copied verbatim. -/
def normalizeRow (row : RawRow F) : Item F :=
  { id := row.id
    title := pyOr row.title "不明な建築物"
    architect := pyOr row.architect "不明な建築家"
    year :=
      match row.year with
      | some y => if y ≠ 0 ∧ y > 0 then some y else none
      | none => none
    address := pyOr row.address "住所不明"
    latitude := row.latitude
    longitude := row.longitude
    category := row.category
    big_category := row.big_category
    description := row.description
    image_url := row.image_url
    tags := row.tags
    prefecture := row.prefecture
    contractor := row.contractor
    structural_designer := row.structural_designer
    landscape_designer := row.landscape_designer
    shinkenchiku_url := row.shinkenchiku_url }

/-! ## Pagination (json-export.py lines 42-113) -/

/-- Fixed page size, json-export.py line 42. -/
def items_per_page : Nat := 50

/-- Page count, json-export.py line 43: math.ceil(total_count / items_per_page),
expressed as ceiling division on Nat (exact for every count the script can
meet, since Python float division is exact below 2^52). -/
def total_pages (total_count : Nat) : Nat :=
  (total_count + items_per_page - 1) / items_per_page

/-- Rows returned by the page query for 0-based page index p: the source
rows are ordered by primary key, and LIMIT items_per_page OFFSET
p * items_per_page selects the corresponding window. -/
def page_rows (rows : List (RawRow F)) (p : Nat) : List (RawRow F) :=
  (rows.drop (p * items_per_page)).take items_per_page

/-- Normalized items of one page (the page_data list of the script). -/
def page_items (rows : List (RawRow F)) (p : Nat) : List (Item F) :=
  (page_rows rows p).map normalizeRow

/-- Content of one page file, json-export.py lines 105-111. -/
structure PageFile (F : Type) where
  page : Nat
  total_pages : Nat
  items_per_page : Nat
  total_items : Nat
  items : List (Item F)
deriving Repr

/-- File name of the 1-based page n, json-export.py line 103. -/
def page_file_name (n : Nat) : String := "page_" ++ toString n ++ ".json"

/-- Page file written for 0-based page index p. -/
def page_file (rows : List (RawRow F)) (p : Nat) : PageFile F :=
  { page := p + 1
    total_pages := total_pages rows.length
    items_per_page := items_per_page
    total_items := rows.length
    items := page_items rows p }

/-- All page files written by the paging loop, each paired with its file
name, in the order the loop writes them. -/
def export_pages (rows : List (RawRow F)) : List (String × PageFile F) :=
  (List.range (total_pages rows.length)).map
    (fun p => (page_file_name (p + 1), page_file rows p))

/-- The all_items accumulation list of the script: the concatenation of all
pages' normalized items, in page order. -/
def all_items (rows : List (RawRow F)) : List (Item F) :=
  ((List.range (total_pages rows.length)).map (fun p => page_items rows p)).flatten

/-! ## Search index (json-export.py lines 117-165)

Python dicts preserve insertion order, so each facet is an association list
from key to id list.  The script's idiom

    if key not in d: d[key] = []
    d[key].append(item_id)

is embedded as addToIndex: bump the entry when the key is present, append a
fresh singleton entry otherwise. -/

/-- One facet update: append id to the list under key k, creating the entry
at the end when the key is absent. -/
def addToIndex (idx : List (String × List Int)) (k : String) (i : Int) :
    List (String × List Int) :=
  if idx.any (fun kv => kv.1 == k) then
    idx.map (fun kv => if kv.1 == k then (kv.1, kv.2 ++ [i]) else kv)
  else
    idx ++ [(k, [i])]

/-- Lookup of the id list under a key, empty when the key is absent. -/
def lookupD (idx : List (String × List Int)) (k : String) : List Int :=
  match idx.find? (fun kv => kv.1 == k) with
  | some kv => kv.2
  | none => []

/-- Whether a key is present in a facet mapping. -/
def hasKey (idx : List (String × List Int)) (k : String) : Bool :=
  idx.any (fun kv => kv.1 == k)

/-- The five facet mappings of search_index.json, in the insertion order of
json-export.py lines 117-123. -/
structure SearchIndex where
  architects : List (String × List Int)
  years : List (String × List Int)
  categories : List (String × List Int)
  titles : List (String × List Int)
  addresses : List (String × List Int)
deriving Repr

/-- Architect facet update for one item, json-export.py lines 129-133: index
under the full lower-cased architect name, skipping falsy (empty) values and
the architect placeholder. -/
def indexArchitect (idx : List (String × List Int)) (it : Item F) :
    List (String × List Int) :=
  if it.architect ≠ "" ∧ it.architect ≠ "不明な建築家" then
    addToIndex idx (pyLower it.architect) it.id
  else idx

/-- Year facet update, json-export.py lines 136-140: index under the decimal
string of the year when it is truthy (present and nonzero). -/
def indexYear (idx : List (String × List Int)) (it : Item F) :
    List (String × List Int) :=
  match it.year with
  | some y => if y ≠ 0 then addToIndex idx (toString y) it.id else idx
  | none => idx

/-- Title facet update, json-export.py lines 143-150: split the lower-cased
title on whitespace and index under the first three code points of every
token of length at least two; falsy (empty) titles are skipped. -/
def indexTitle (idx : List (String × List Int)) (it : Item F) :
    List (String × List Int) :=
  if it.title ≠ "" then
    (pySplit (pyLower it.title)).foldl
      (fun i part => if 2 ≤ pyLen part then addToIndex i (pyTake part 3) it.id else i)
      idx
  else idx

/-- Category facet update, json-export.py lines 153-157: index under the full
lower-cased category when it is truthy (present and nonempty). -/
def indexCategory (idx : List (String × List Int)) (it : Item F) :
    List (String × List Int) :=
  match it.category with
  | some c => if c ≠ "" then addToIndex idx (pyLower c) it.id else idx
  | none => idx

/-- Address facet update, json-export.py lines 160-165: index under the first
five code points of the lower-cased address, skipping falsy (empty) values
and the address placeholder. -/
def indexAddress (idx : List (String × List Int)) (it : Item F) :
    List (String × List Int) :=
  if it.address ≠ "" ∧ it.address ≠ "住所不明" then
    addToIndex idx (pyTake (pyLower it.address) 5) it.id
  else idx

/-- Per-item pass of the index-building loop body, lines 125-165: the five
facet fields are updated independently. -/
def indexItem (si : SearchIndex) (it : Item F) : SearchIndex :=
  { architects := indexArchitect si.architects it
    years := indexYear si.years it
    categories := indexCategory si.categories it
    titles := indexTitle si.titles it
    addresses := indexAddress si.addresses it }

/-- The whole search index built over the accumulated items, starting from
the five empty mappings of lines 117-123. -/
def build_search_index (items : List (Item F)) : SearchIndex :=
  items.foldl indexItem ⟨[], [], [], [], []⟩

/-! ## Manifest and whole-run output (json-export.py lines 175-185) -/

/-- Content of metadata.json, json-export.py lines 175-181. -/
structure Manifest where
  total_items : Nat
  total_pages : Nat
  items_per_page : Nat
  generated_at : String
  format_version : String
deriving Repr

/-- Manifest built for a given total count using the wall-clock string the
run observes at write time (datetime.now().isoformat()). -/
def make_metadata (total_count : Nat) (now : String) : Manifest :=
  { total_items := total_count
    total_pages := total_pages total_count
    items_per_page := items_per_page
    generated_at := now
    format_version := "1.0" }

/-- Everything a successful run writes: the page files with their names, the
search index, and the manifest.  The wall-clock string is an input because it
is the only run-dependent datum. -/
structure ExportOutput (F : Type) where
  pages : List (String × PageFile F)
  search_index : SearchIndex
  metadata : Manifest
deriving Repr

/-- The full data transformation of a successful run over the ordered row
sequence of the source. -/
def exportRun (rows : List (RawRow F)) (now : String) : ExportOutput F :=
  { pages := export_pages rows
    search_index := build_search_index (all_items rows)
    metadata := make_metadata rows.length now }

/-! ## Control flow, exceptions and resource release
(json-export.py lines 26-33, 203-207, 209-221)

The script opens the connection under its own try/except (returning False on
a connect error before the main try block is entered), then runs the whole
export inside try ... except Exception ... finally conn.close().  The
environment below records, for each effectful step, whether that step raises;
the run model follows the program order (count, then per page the query and
the page write, then the index write, then the metadata write), aborts at the
first raising step, and counts how many times conn.close() executes. -/

/-- Outcome environment of one invocation: the rows of the source and, for
every effectful step, the exception message it raises, if any. -/
structure Env (F : Type) where
  rows : List (RawRow F)
  now : String
  connectErr : Option String
  countErr : Option String
  queryErr : Nat → Option String
  pageWriteErr : Nat → Option String
  indexWriteErr : Option String
  metadataWriteErr : Option String

/-- First exception raised while handling 0-based page p: the bounded query
runs before the page write. -/
def page_err (env : Env F) (p : Nat) : Option String :=
  match env.queryErr p with
  | some e => some e
  | none => env.pageWriteErr p

/-- First exception raised inside the main try block, in program order:
counting, then each page in order, then the index write, then the metadata
write.  none means the block runs to completion. -/
def body_err (env : Env F) : Option String :=
  match env.countErr with
  | some e => some e
  | none =>
    match (List.range (total_pages env.rows.length)).findSome? (page_err env) with
    | some e => some e
    | none =>
      match env.indexWriteErr with
      | some e => some e
      | none => env.metadataWriteErr

/-- Observable outcome of one invocation of export_architecture_data. -/
structure RunResult (F : Type) where
  success : Bool
  closeCalls : Nat
  output : Option (ExportOutput F)
deriving Repr

/-- Model of export_architecture_data: a connect error returns False before
the try/finally is entered (no close); otherwise the finally clause closes
the connection exactly once, on the normal path and on the exception path
alike, and the function returns True exactly when no step raised. -/
def export_architecture_data (env : Env F) : RunResult F :=
  match env.connectErr with
  | some _ => { success := false, closeCalls := 0, output := none }
  | none =>
    match body_err env with
    | some _ => { success := false, closeCalls := 1, output := none }
    | none =>
      { success := true, closeCalls := 1, output := some (exportRun env.rows env.now) }

/-- Model of the __main__ block, json-export.py line 221:
sys.exit(0 if success else 1). -/
def mainExitCode (env : Env F) : Nat :=
  if (export_architecture_data env).success then 0 else 1

/-! ## Concrete sample data for witnesses -/

/-- Sample fully-populated raw row with a given id. -/
def sampleRow (i : Int) : RawRow Int :=
  { id := i
    title := some "Tokyo Tower"
    architect := some "Tadao Ando"
    year := some 1923
    address := some "Tokyo Japan"
    latitude := some 35
    longitude := some 139
    category := some "Museum"
    big_category := some "Public"
    description := some "a building"
    image_url := none
    tags := some "tag1,tag2"
    prefecture := some "Tokyo"
    contractor := none
    structural_designer := none
    landscape_designer := none
    shinkenchiku_url := none }

/-- Sample raw row whose optional fields are all NULL. -/
def emptyRow (i : Int) : RawRow Int :=
  { id := i
    title := none
    architect := none
    year := none
    address := none
    latitude := none
    longitude := none
    category := none
    big_category := none
    description := none
    image_url := none
    tags := none
    prefecture := none
    contractor := none
    structural_designer := none
    landscape_designer := none
    shinkenchiku_url := none }

/-- Environment of a run in which no step raises. -/
def cleanEnv (rows : List (RawRow Int)) : Env Int :=
  { rows := rows
    now := "2026-01-01T00:00:00"
    connectErr := none
    countErr := none
    queryErr := fun _ => none
    pageWriteErr := fun _ => none
    indexWriteErr := none
    metadataWriteErr := none }

/-! ## Association-list lemmas for the index embedding -/

/-- Lookup on the empty mapping. -/
lemma lookupD_nil (k : String) : lookupD [] k = [] := rfl

/-- Lookup on a cons cell: the head entry shadows the tail. -/
lemma lookupD_cons (kv : String × List Int) (idx : List (String × List Int))
    (k : String) :
    lookupD (kv :: idx) k = if kv.1 == k then kv.2 else lookupD idx k := by
  by_cases h : kv.1 == k <;> simp [lookupD, List.find?_cons, h]

/-- Key presence on a cons cell. -/
lemma hasKey_cons (kv : String × List Int) (idx : List (String × List Int))
    (k : String) :
    hasKey (kv :: idx) k = ((kv.1 == k) || hasKey idx k) := by
  simp [hasKey]

/-- An absent key looks up to the empty list. -/
lemma lookupD_eq_nil_of_hasKey_eq_false (idx : List (String × List Int))
    (k : String) (h : hasKey idx k = false) : lookupD idx k = [] := by
  induction idx with
  | nil => rfl
  | cons kv idx ih =>
    rw [hasKey_cons] at h
    rcases Bool.or_eq_false_iff.mp h with ⟨h₁, h₂⟩
    rw [lookupD_cons, h₁, if_neg (by simp)]
    exact ih h₂

/-- Named form of the per-entry bump performed by addToIndex when the key is
already present. -/
def bumpEntry (k : String) (i : Int) (kv : String × List Int) : String × List Int :=
  if kv.1 = k then (kv.1, kv.2 ++ [i]) else kv

/-- The two branches of addToIndex, with the bump named. -/
lemma addToIndex_eq (idx : List (String × List Int)) (k : String) (i : Int) :
    addToIndex idx k i =
      if hasKey idx k then idx.map (bumpEntry k i) else idx ++ [(k, [i])] := by
  have hfun : (fun kv : String × List Int =>
      if kv.1 == k then (kv.1, kv.2 ++ [i]) else kv) = bumpEntry k i := by
    funext kv
    by_cases h : kv.1 = k <;> simp [bumpEntry, h]
  rw [addToIndex, hasKey, hfun]

/-- The bump map of addToIndex changes only the list under the bumped key,
appending the id there (at the first entry carrying the key, which is the one
lookup sees). -/
lemma lookupD_map_bump (idx : List (String × List Int)) (k : String) (i : Int)
    (k₂ : String) :
    lookupD (idx.map (bumpEntry k i)) k₂ =
      if k₂ = k ∧ hasKey idx k then lookupD idx k₂ ++ [i] else lookupD idx k₂ := by
  induction idx with
  | nil => simp [lookupD_nil, hasKey]
  | cons kv idx ih =>
    by_cases hh : kv.1 = k
    · by_cases hkk : k₂ = k
      · subst hkk
        simp [lookupD_cons, hasKey_cons, bumpEntry, hh]
      · have hne : kv.1 ≠ k₂ := by
          rw [hh]
          exact fun h => hkk h.symm
        have hk2 : k ≠ k₂ := fun h => hkk h.symm
        simp [lookupD_cons, bumpEntry, ih, hh, hkk, hne, hk2]
    · by_cases h₂ : kv.1 = k₂
      · have hkk : k₂ ≠ k := fun hc => hh (h₂.trans hc)
        simp [lookupD_cons, bumpEntry, hh, h₂, hkk]
      · simp [lookupD_cons, bumpEntry, ih, hasKey_cons, hh, h₂]

/-- Appending a fresh entry changes only that key, and only when the key was
absent does addToIndex take this branch. -/
lemma lookupD_append_single (idx : List (String × List Int)) (k : String) (i : Int)
    (k₂ : String) :
    lookupD (idx ++ [(k, [i])]) k₂ =
      if k₂ = k ∧ hasKey idx k = false then lookupD idx k₂ ++ [i]
      else lookupD idx k₂ := by
  induction idx with
  | nil =>
    by_cases hkk : k₂ = k
    · subst hkk
      simp [lookupD_cons, lookupD_nil, hasKey]
    · have hne : k ≠ k₂ := fun h => hkk h.symm
      simp [lookupD_cons, lookupD_nil, hasKey, hne, hkk]
  | cons kv idx ih =>
    by_cases h₂ : kv.1 = k₂
    · by_cases hkk : k₂ = k
      · subst hkk
        simp [lookupD_cons, hasKey_cons, h₂]
      · simp [lookupD_cons, h₂, hkk]
    · by_cases hh : kv.1 = k
      · have hkk : k₂ ≠ k := fun hc => h₂ (hh.trans hc.symm)
        simp [List.cons_append, lookupD_cons, ih, hasKey_cons, h₂, hh, hkk]
      · simp [List.cons_append, lookupD_cons, ih, hasKey_cons, h₂, hh]

/-- Effect of one addToIndex on lookupD: the list under the touched key grows
by the appended id, every other key is untouched. -/
lemma lookupD_addToIndex (idx : List (String × List Int)) (k : String) (i : Int)
    (k₂ : String) :
    lookupD (addToIndex idx k i) k₂ =
      if k₂ = k then lookupD idx k ++ [i] else lookupD idx k₂ := by
  rw [addToIndex_eq]
  by_cases hk : hasKey idx k
  · rw [if_pos hk, lookupD_map_bump]
    by_cases hkk : k₂ = k
    · subst hkk
      simp [hk]
    · simp [hkk]
  · have hfalse : hasKey idx k = false := by
      cases h : hasKey idx k with
      | false => rfl
      | true => exact absurd h hk
    rw [if_neg hk, lookupD_append_single]
    by_cases hkk : k₂ = k
    · subst hkk
      rw [if_pos ⟨rfl, hfalse⟩, if_pos rfl]
    · simp [hkk]

/-- Key presence is preserved by the bump map. -/
lemma hasKey_map_bump (idx : List (String × List Int)) (k : String) (i : Int)
    (k₂ : String) :
    hasKey (idx.map (bumpEntry k i)) k₂ = hasKey idx k₂ := by
  induction idx with
  | nil => rfl
  | cons kv idx ih =>
    rw [List.map_cons, hasKey_cons, hasKey_cons, ih]
    congr 1
    by_cases hh : kv.1 = k <;> simp [bumpEntry, hh]

/-- Effect of one addToIndex on key presence: exactly the touched key is
added. -/
lemma hasKey_addToIndex (idx : List (String × List Int)) (k : String) (i : Int)
    (k₂ : String) :
    hasKey (addToIndex idx k i) k₂ = (hasKey idx k₂ || (k₂ == k)) := by
  rw [addToIndex_eq]
  by_cases hk : hasKey idx k
  · rw [if_pos hk, hasKey_map_bump]
    by_cases hkk : k₂ = k
    · subst hkk
      simp [hk]
    · simp [hkk]
  · rw [if_neg hk]
    simp only [hasKey, List.any_append, List.any_cons, List.any_nil, Bool.or_false]
    rw [Bool.beq_comm]

/-- Sequential addition of a list of key-id pairs (the order in which one
item contributes them). -/
def addAll (idx : List (String × List Int)) (ps : List (String × Int)) :
    List (String × List Int) :=
  ps.foldl (fun i p => addToIndex i p.1 p.2) idx

/-- Lookup after addAll: the previous list under the key, extended by the
contributed ids in contribution order. -/
lemma lookupD_addAll (ps : List (String × Int)) (idx : List (String × List Int))
    (k : String) :
    lookupD (addAll idx ps) k =
      lookupD idx k ++ (ps.filter (fun p => p.1 == k)).map (fun p => p.2) := by
  induction ps generalizing idx with
  | nil => simp [addAll]
  | cons p ps ih =>
    have hstep : addAll idx (p :: ps) = addAll (addToIndex idx p.1 p.2) ps := rfl
    rw [hstep, ih]
    by_cases hkk : k = p.1
    · subst hkk
      simp [lookupD_addToIndex, List.filter_cons]
    · have : (p.1 == k) = false := by
        simp [beq_iff_eq]
        exact fun h => hkk h.symm
      simp [lookupD_addToIndex, hkk, List.filter_cons, this]

/-- Key presence after addAll. -/
lemma hasKey_addAll (ps : List (String × Int)) (idx : List (String × List Int))
    (k : String) :
    hasKey (addAll idx ps) k = (hasKey idx k || ps.any (fun p => p.1 == k)) := by
  induction ps generalizing idx with
  | nil => simp [addAll]
  | cons p ps ih =>
    have hstep : addAll idx (p :: ps) = addAll (addToIndex idx p.1 p.2) ps := rfl
    rw [hstep, ih, hasKey_addToIndex]
    by_cases hkk : k = p.1
    · subst hkk
      simp [Bool.or_comm, Bool.or_assoc, Bool.or_left_comm]
    · have h1 : (k == p.1) = false := by simp [beq_iff_eq, hkk]
      have h2 : (p.1 == k) = false := by
        simp [beq_iff_eq]
        exact fun h => hkk h.symm
      simp [h1, h2]

/-! ## Key derivation per facet, following the spec wording (section 3)

These are the per-record key derivation rules stated by the spec: full
lowercase architect name (placeholder and falsy values excluded), year as its
decimal string, first-3-code-point slice of each whitespace-split token of
length at least 2 of the lowercase title, full lowercase category, first-5-
code-point slice of the lowercase address (placeholder and falsy values
excluded).  The index builder is proved equal to the addAll of these keys. -/

/-- Keys the architect facet derives from one item. -/
def architectKeys (it : Item F) : List String :=
  if it.architect ≠ "" ∧ it.architect ≠ "不明な建築家" then [pyLower it.architect]
  else []

/-- Keys the year facet derives from one item. -/
def yearKeys (it : Item F) : List String :=
  match it.year with
  | some y => if y ≠ 0 then [toString y] else []
  | none => []

/-- Keys the title facet derives from one item. -/
def titleKeys (it : Item F) : List String :=
  if it.title ≠ "" then
    (pySplit (pyLower it.title)).filterMap
      (fun part => if 2 ≤ pyLen part then some (pyTake part 3) else none)
  else []

/-- Keys the category facet derives from one item. -/
def categoryKeys (it : Item F) : List String :=
  match it.category with
  | some c => if c ≠ "" then [pyLower c] else []
  | none => []

/-- Keys the address facet derives from one item. -/
def addressKeys (it : Item F) : List String :=
  if it.address ≠ "" ∧ it.address ≠ "住所不明" then [pyTake (pyLower it.address) 5]
  else []

/-- Ids contributed to the list under key k, in processing order, with the
multiplicity given by how often each item derives the key; this is what the
append-only loop of the script produces under one key. -/
def contrib (keys : Item F → List String) (items : List (Item F)) (k : String) :
    List Int :=
  items.flatMap (fun it => (((keys it).filter (fun kk => kk == k)).map (fun _ => it.id)))

/-! ## Bridging the per-item facet updates to addAll -/

lemma indexArchitect_eq (idx : List (String × List Int)) (it : Item F) :
    indexArchitect idx it = addAll idx ((architectKeys it).map (fun kk => (kk, it.id))) := by
  by_cases h : it.architect ≠ "" ∧ it.architect ≠ "不明な建築家" <;>
    simp [indexArchitect, architectKeys, addAll, h]

lemma indexYear_eq (idx : List (String × List Int)) (it : Item F) :
    indexYear idx it = addAll idx ((yearKeys it).map (fun kk => (kk, it.id))) := by
  cases hy : it.year with
  | none => simp [indexYear, yearKeys, addAll, hy]
  | some y =>
    by_cases h : y ≠ 0 <;> simp [indexYear, yearKeys, addAll, hy, h]

lemma indexCategory_eq (idx : List (String × List Int)) (it : Item F) :
    indexCategory idx it = addAll idx ((categoryKeys it).map (fun kk => (kk, it.id))) := by
  cases hc : it.category with
  | none => simp [indexCategory, categoryKeys, addAll, hc]
  | some c =>
    by_cases h : c ≠ "" <;> simp [indexCategory, categoryKeys, addAll, hc, h]

lemma indexAddress_eq (idx : List (String × List Int)) (it : Item F) :
    indexAddress idx it = addAll idx ((addressKeys it).map (fun kk => (kk, it.id))) := by
  by_cases h : it.address ≠ "" ∧ it.address ≠ "住所不明" <;>
    simp [indexAddress, addressKeys, addAll, h]

/-- The token loop of the title facet is the addAll of the filtered token
slices, in token order. -/
lemma title_foldl_eq (i : Int) (parts : List String) (idx : List (String × List Int)) :
    parts.foldl
      (fun a part => if 2 ≤ pyLen part then addToIndex a (pyTake part 3) i else a) idx
    = addAll idx
        ((parts.filterMap
          (fun part => if 2 ≤ pyLen part then some (pyTake part 3) else none)).map
          (fun kk => (kk, i))) := by
  induction parts generalizing idx with
  | nil => simp [addAll]
  | cons part parts ih =>
    by_cases h : 2 ≤ pyLen part
    · simp only [List.foldl_cons, if_pos h, List.filterMap_cons, h, if_true,
        List.map_cons]
      rw [ih]
      rfl
    · simp only [List.foldl_cons, if_neg h, List.filterMap_cons, h, if_false]
      rw [ih]

lemma indexTitle_eq (idx : List (String × List Int)) (it : Item F) :
    indexTitle idx it = addAll idx ((titleKeys it).map (fun kk => (kk, it.id))) := by
  by_cases h : it.title ≠ ""
  · simp only [indexTitle, titleKeys, if_pos h, title_foldl_eq]
  · simp [indexTitle, titleKeys, addAll, h]

/-! ## Characterization of the whole index builder -/

/-- Generic fold characterization of one facet: looking up a key after
folding a facet update over the items yields the prior list extended by the
contributions, in processing order. -/
lemma lookupD_foldl (step : List (String × List Int) → Item F → List (String × List Int))
    (keys : Item F → List String)
    (hstep : ∀ idx it, step idx it = addAll idx ((keys it).map (fun kk => (kk, it.id))))
    (items : List (Item F)) (idx : List (String × List Int)) (k : String) :
    lookupD (items.foldl step idx) k = lookupD idx k ++ contrib keys items k := by
  induction items generalizing idx with
  | nil => simp [contrib]
  | cons it items ih =>
    rw [List.foldl_cons, hstep, ih, lookupD_addAll]
    have hfm : (((keys it).map (fun kk => (kk, it.id))).filter
        (fun p => p.1 == k)).map (fun p => p.2)
        = ((keys it).filter (fun kk => kk == k)).map (fun _ => it.id) := by
      rw [List.filter_map, List.map_map]
      rfl
    rw [hfm]
    simp only [contrib, List.flatMap_cons, List.append_assoc]

/-- Generic fold characterization of key presence in one facet. -/
lemma hasKey_foldl (step : List (String × List Int) → Item F → List (String × List Int))
    (keys : Item F → List String)
    (hstep : ∀ idx it, step idx it = addAll idx ((keys it).map (fun kk => (kk, it.id))))
    (items : List (Item F)) (idx : List (String × List Int)) (k : String) :
    hasKey (items.foldl step idx) k =
      (hasKey idx k || items.any (fun it => (keys it).any (fun kk => kk == k))) := by
  induction items generalizing idx with
  | nil => simp
  | cons it items ih =>
    rw [List.foldl_cons, hstep, ih, hasKey_addAll]
    have hm : ∀ (l : List String),
        (l.map (fun kk => (kk, it.id))).any (fun p => p.1 == k)
        = l.any (fun kk => kk == k) := by
      intro l
      induction l with
      | nil => rfl
      | cons a l ihl => simp [List.any_cons, ihl]
    rw [hm, List.any_cons, Bool.or_assoc]

/-- The five facet fields of the fold are the five independent facet folds. -/
lemma foldl_indexItem_proj (items : List (Item F)) (si : SearchIndex) :
    (items.foldl indexItem si).architects = items.foldl indexArchitect si.architects
  ∧ (items.foldl indexItem si).years = items.foldl indexYear si.years
  ∧ (items.foldl indexItem si).categories = items.foldl indexCategory si.categories
  ∧ (items.foldl indexItem si).titles = items.foldl indexTitle si.titles
  ∧ (items.foldl indexItem si).addresses = items.foldl indexAddress si.addresses := by
  induction items generalizing si with
  | nil => exact ⟨rfl, rfl, rfl, rfl, rfl⟩
  | cons it items ih => exact ih (indexItem si it)

/-- Full characterization of the architects facet of the built index. -/
lemma lookupD_build_architects (items : List (Item F)) (k : String) :
    lookupD (build_search_index items).architects k = contrib architectKeys items k := by
  rw [build_search_index, (foldl_indexItem_proj items _).1,
    lookupD_foldl indexArchitect architectKeys indexArchitect_eq]
  rfl

/-- Full characterization of the years facet of the built index. -/
lemma lookupD_build_years (items : List (Item F)) (k : String) :
    lookupD (build_search_index items).years k = contrib yearKeys items k := by
  rw [build_search_index, (foldl_indexItem_proj items _).2.1,
    lookupD_foldl indexYear yearKeys indexYear_eq]
  rfl

/-- Full characterization of the categories facet of the built index. -/
lemma lookupD_build_categories (items : List (Item F)) (k : String) :
    lookupD (build_search_index items).categories k = contrib categoryKeys items k := by
  rw [build_search_index, (foldl_indexItem_proj items _).2.2.1,
    lookupD_foldl indexCategory categoryKeys indexCategory_eq]
  rfl

/-- Full characterization of the titles facet of the built index. -/
lemma lookupD_build_titles (items : List (Item F)) (k : String) :
    lookupD (build_search_index items).titles k = contrib titleKeys items k := by
  rw [build_search_index, (foldl_indexItem_proj items _).2.2.2.1,
    lookupD_foldl indexTitle titleKeys indexTitle_eq]
  rfl

/-- Full characterization of the addresses facet of the built index. -/
lemma lookupD_build_addresses (items : List (Item F)) (k : String) :
    lookupD (build_search_index items).addresses k = contrib addressKeys items k := by
  rw [build_search_index, (foldl_indexItem_proj items _).2.2.2.2,
    lookupD_foldl indexAddress addressKeys indexAddress_eq]
  rfl

/-- Key presence in each facet of the built index. -/
lemma hasKey_build (items : List (Item F)) (k : String) :
    hasKey (build_search_index items).architects k
      = items.any (fun it => (architectKeys it).any (fun kk => kk == k))
  ∧ hasKey (build_search_index items).years k
      = items.any (fun it => (yearKeys it).any (fun kk => kk == k))
  ∧ hasKey (build_search_index items).categories k
      = items.any (fun it => (categoryKeys it).any (fun kk => kk == k))
  ∧ hasKey (build_search_index items).titles k
      = items.any (fun it => (titleKeys it).any (fun kk => kk == k))
  ∧ hasKey (build_search_index items).addresses k
      = items.any (fun it => (addressKeys it).any (fun kk => kk == k)) := by
  obtain ⟨h1, h2, h3, h4, h5⟩ := foldl_indexItem_proj items (⟨[], [], [], [], []⟩ : SearchIndex)
  refine ⟨?_, ?_, ?_, ?_, ?_⟩
  · rw [build_search_index, h1, hasKey_foldl indexArchitect architectKeys indexArchitect_eq]
    rfl
  · rw [build_search_index, h2, hasKey_foldl indexYear yearKeys indexYear_eq]
    rfl
  · rw [build_search_index, h3, hasKey_foldl indexCategory categoryKeys indexCategory_eq]
    rfl
  · rw [build_search_index, h4, hasKey_foldl indexTitle titleKeys indexTitle_eq]
    rfl
  · rw [build_search_index, h5, hasKey_foldl indexAddress addressKeys indexAddress_eq]
    rfl

/-- Membership in a contribution list. -/
lemma mem_contrib (keys : Item F → List String) (items : List (Item F)) (k : String)
    (i : Int) :
    i ∈ contrib keys items k ↔ ∃ it ∈ items, it.id = i ∧ k ∈ keys it := by
  simp only [contrib, List.mem_flatMap, List.mem_map, List.mem_filter, beq_iff_eq]
  constructor
  · rintro ⟨it, hmem, kk, ⟨hkk, hek⟩, hid⟩
    exact ⟨it, hmem, hid, hek ▸ hkk⟩
  · rintro ⟨it, hmem, hid, hkk⟩
    exact ⟨it, hmem, k, ⟨hkk, rfl⟩, hid⟩

/-! ## Pagination lemmas -/

/-- Ceiling property of the page count: the pages always have room for every
record. -/
lemma length_le_total_pages_mul (n : Nat) : n ≤ total_pages n * items_per_page := by
  have h1 := Nat.div_add_mod (n + 49) 50
  have h2 : (n + 49) % 50 < 50 := Nat.mod_lt _ (by norm_num)
  simp only [total_pages, items_per_page]
  omega

/-- When enough pages are taken, the concatenation of the fixed-size chunks
of a list reassembles the list (chunks past the end are empty). -/
lemma flatten_chunks {α : Type} :
    ∀ (k : Nat) (l : List α), l.length ≤ k * items_per_page →
    ((List.range k).map
      (fun p => (l.drop (p * items_per_page)).take items_per_page)).flatten = l := by
  intro k
  induction k with
  | zero =>
    intro l hl
    have : l = [] := List.eq_nil_of_length_eq_zero (Nat.le_zero.mp (by simpa using hl))
    simp [this]
  | succ k ih =>
    intro l hl
    rw [List.range_succ_eq_map, List.map_cons, List.flatten_cons]
    have hshift : ∀ p : Nat,
        (l.drop (Nat.succ p * items_per_page)).take items_per_page
        = ((l.drop items_per_page).drop (p * items_per_page)).take items_per_page := by
      intro p
      rw [List.drop_drop]
      have h : Nat.succ p * items_per_page = items_per_page + p * items_per_page := by
        simp only [items_per_page]
        omega
      rw [h]
    have hmap : ((List.range k).map Nat.succ).map
        (fun p => (l.drop (p * items_per_page)).take items_per_page)
        = (List.range k).map
          (fun p => ((l.drop items_per_page).drop (p * items_per_page)).take items_per_page) := by
      rw [List.map_map]
      exact List.map_congr_left (fun p _ => hshift p)
    rw [hmap, ih (l.drop items_per_page)
      (by
        rw [List.length_drop]
        have h50 : items_per_page = 50 := rfl
        rw [h50] at hl ⊢
        omega)]
    simp [Nat.zero_mul, List.take_append_drop]

/-- The accumulated all_items list is the normalization of the full ordered
row list: the pages partition the rows exactly once, in source order. -/
lemma all_items_eq (rows : List (RawRow F)) :
    all_items rows = rows.map normalizeRow := by
  have hchunks := flatten_chunks (total_pages rows.length) rows
    (length_le_total_pages_mul rows.length)
  have hmaps : (List.range (total_pages rows.length)).map (fun p => page_items rows p)
      = (List.range (total_pages rows.length)).map
        (fun p => ((rows.drop (p * items_per_page)).take items_per_page).map normalizeRow) := rfl
  calc all_items rows
      = (((List.range (total_pages rows.length)).map
          (fun p => (rows.drop (p * items_per_page)).take items_per_page)).map
          (List.map normalizeRow)).flatten := by
        rw [all_items, hmaps, List.map_map]
        rfl
    _ = (((List.range (total_pages rows.length)).map
          (fun p => (rows.drop (p * items_per_page)).take items_per_page)).flatten).map
          normalizeRow := by
        rw [List.map_flatten]
    _ = rows.map normalizeRow := by rw [hchunks]

/-- Every page except possibly the last holds exactly items_per_page
records. -/
lemma page_items_length (rows : List (RawRow F)) (p : Nat)
    (hp : p + 1 < total_pages rows.length) :
    (page_items rows p).length = items_per_page := by
  have hge : (p + 1) * items_per_page < rows.length := by
    have h1 := Nat.div_add_mod (rows.length + 49) 50
    have h2 : (rows.length + 49) % 50 < 50 := Nat.mod_lt _ (by norm_num)
    simp only [total_pages, items_per_page] at hp ⊢
    omega
  simp only [page_items, page_rows, List.length_map, List.length_take, List.length_drop]
  simp only [items_per_page] at *
  omega

/-! ## Error-model lemmas -/

lemma page_err_eq_none (env : Env F) (p : Nat) :
    page_err env p = none ↔ env.queryErr p = none ∧ env.pageWriteErr p = none := by
  cases h : env.queryErr p <;> simp [page_err, h]

/-- The main try block runs to completion exactly when no step raises. -/
lemma body_err_eq_none (env : Env F) :
    body_err env = none ↔
      env.countErr = none
      ∧ (∀ p, p < total_pages env.rows.length →
          env.queryErr p = none ∧ env.pageWriteErr p = none)
      ∧ env.indexWriteErr = none ∧ env.metadataWriteErr = none := by
  constructor
  · intro h
    unfold body_err at h
    cases hc : env.countErr with
    | some e => rw [hc] at h; simp at h
    | none =>
      rw [hc] at h
      cases hf : (List.range (total_pages env.rows.length)).findSome? (page_err env) with
      | some e => rw [hf] at h; simp at h
      | none =>
        rw [hf] at h
        cases hi : env.indexWriteErr with
        | some e => rw [hi] at h; simp at h
        | none =>
          rw [hi] at h
          refine ⟨rfl, ?_, rfl, h⟩
          intro p hp
          have := List.findSome?_eq_none_iff.mp hf p (List.mem_range.mpr hp)
          exact (page_err_eq_none env p).mp this
  · rintro ⟨h1, h2, h3, h4⟩
    unfold body_err
    rw [h1]
    have hf : (List.range (total_pages env.rows.length)).findSome? (page_err env) = none := by
      refine List.findSome?_eq_none_iff.mpr ?_
      intro p hp
      exact (page_err_eq_none env p).mpr (h2 p (List.mem_range.mp hp))
    rw [hf, h3]
    exact h4

/-! ## Claims -/

/-- C3: for every raw row, the normalized record's year equals the raw year
exactly when the raw year is a positive integer, and is absent (never zero or
negative) otherwise, including when the raw year is null, zero, or
negative. -/
theorem c3_year_normalization (row : RawRow Int) :
    (∀ y : Int, row.year = some y → 0 < y → (normalizeRow row).year = row.year)
  ∧ (row.year = none → (normalizeRow row).year = none)
  ∧ (∀ y : Int, row.year = some y → y ≤ 0 → (normalizeRow row).year = none)
  ∧ (∀ y : Int, (normalizeRow row).year = some y → 0 < y ∧ row.year = some y) := by
  refine ⟨?_, ?_, ?_, ?_⟩
  · intro y hy hpos
    have hne : y ≠ 0 := by omega
    simp [normalizeRow, hy, hne, hpos]
  · intro hy
    simp [normalizeRow, hy]
  · intro y hy hnonpos
    rcases eq_or_lt_of_le hnonpos with h0 | hneg
    · simp [normalizeRow, hy, h0]
    · have hne : ¬ 0 < y := by omega
      simp [normalizeRow, hy, hne]
  · intro y hy
    cases hr : row.year with
    | none => rw [normalizeRow] at hy; simp [hr] at hy
    | some z =>
      rw [normalizeRow] at hy
      simp only [hr] at hy
      by_cases hz : z ≠ 0 ∧ z > 0
      · rw [if_pos hz] at hy
        cases hy
        exact ⟨hz.2, rfl⟩
      · rw [if_neg hz] at hy
        cases hy

/-- C3 witness: concrete rows exercising the positive, null, zero and
negative year cases. -/
theorem c3_year_normalization_witness :
    (normalizeRow (sampleRow 1)).year = (sampleRow 1).year
  ∧ (normalizeRow (emptyRow 2)).year = none
  ∧ (normalizeRow { emptyRow 3 with year := some 0 }).year = none
  ∧ (normalizeRow { emptyRow 4 with year := some (-5) }).year = none := by
  refine ⟨?_, ?_, ?_, ?_⟩
  · exact (c3_year_normalization (sampleRow 1)).1 1923 rfl (by norm_num)
  · exact (c3_year_normalization (emptyRow 2)).2.1 rfl
  · exact (c3_year_normalization { emptyRow 3 with year := some 0 }).2.2.1 0 rfl (by norm_num)
  · exact (c3_year_normalization { emptyRow 4 with year := some (-5) }).2.2.1 (-5) rfl (by norm_num)

/-- C4: normalization substitutes the fixed placeholder for title, architect
and address exactly when the source value is null or empty, passes them
through unchanged otherwise, passes every remaining field through verbatim
(including null), and is a pure function of the row (it is a Lean function
of the row by construction). -/
theorem c4_normalization (row : RawRow Int) :
    ((row.title = none ∨ row.title = some "") →
      (normalizeRow row).title = "不明な建築物")
  ∧ (∀ s, row.title = some s → s ≠ "" → (normalizeRow row).title = s)
  ∧ ((row.architect = none ∨ row.architect = some "") →
      (normalizeRow row).architect = "不明な建築家")
  ∧ (∀ s, row.architect = some s → s ≠ "" → (normalizeRow row).architect = s)
  ∧ ((row.address = none ∨ row.address = some "") →
      (normalizeRow row).address = "住所不明")
  ∧ (∀ s, row.address = some s → s ≠ "" → (normalizeRow row).address = s)
  ∧ (normalizeRow row).id = row.id
  ∧ (normalizeRow row).latitude = row.latitude
  ∧ (normalizeRow row).longitude = row.longitude
  ∧ (normalizeRow row).category = row.category
  ∧ (normalizeRow row).big_category = row.big_category
  ∧ (normalizeRow row).description = row.description
  ∧ (normalizeRow row).image_url = row.image_url
  ∧ (normalizeRow row).tags = row.tags
  ∧ (normalizeRow row).prefecture = row.prefecture
  ∧ (normalizeRow row).contractor = row.contractor
  ∧ (normalizeRow row).structural_designer = row.structural_designer
  ∧ (normalizeRow row).landscape_designer = row.landscape_designer
  ∧ (normalizeRow row).shinkenchiku_url = row.shinkenchiku_url := by
  refine ⟨?_, ?_, ?_, ?_, ?_, ?_, rfl, rfl, rfl, rfl, rfl, rfl, rfl, rfl, rfl, rfl,
    rfl, rfl, rfl⟩
  · rintro (h | h) <;> simp [normalizeRow, pyOr, h]
  · intro s hs hne
    simp [normalizeRow, pyOr, hs, hne]
  · rintro (h | h) <;> simp [normalizeRow, pyOr, h]
  · intro s hs hne
    simp [normalizeRow, pyOr, hs, hne]
  · rintro (h | h) <;> simp [normalizeRow, pyOr, h]
  · intro s hs hne
    simp [normalizeRow, pyOr, hs, hne]

/-- C4 witness: placeholder substitution on an all-null row and verbatim
pass-through on a populated row. -/
theorem c4_normalization_witness :
    (normalizeRow (emptyRow 1)).title = "不明な建築物"
  ∧ (normalizeRow (sampleRow 2)).architect = "Tadao Ando"
  ∧ (normalizeRow (sampleRow 2)).tags = (sampleRow 2).tags := by
  refine ⟨?_, ?_, ?_⟩
  · exact (c4_normalization (emptyRow 1)).1 (Or.inl rfl)
  · exact (c4_normalization (sampleRow 2)).2.2.2.1 "Tadao Ando" rfl (by decide)
  · exact (c4_normalization (sampleRow 2)).2.2.2.2.2.2.2.2.2.2.2.2.2.1

/-- C6: the export run is a deterministic function of the source rows; only
the generated_at field of the manifest depends on the wall clock, so two runs
over an unchanged source produce identical page files and an identical search
index, and manifests that can differ only in generated_at (format_version in
particular is the constant string 1.0).  json.dump with fixed options is a
deterministic function of the dumped content, so content equality models
byte-for-byte equality of the written files. -/
theorem c6_idempotence (rows : List (RawRow Int)) (t₁ t₂ : String) :
    (exportRun rows t₁).pages = (exportRun rows t₂).pages
  ∧ (exportRun rows t₁).search_index = (exportRun rows t₂).search_index
  ∧ (exportRun rows t₁).metadata.total_items = (exportRun rows t₂).metadata.total_items
  ∧ (exportRun rows t₁).metadata.total_pages = (exportRun rows t₂).metadata.total_pages
  ∧ (exportRun rows t₁).metadata.items_per_page
      = (exportRun rows t₂).metadata.items_per_page
  ∧ (exportRun rows t₁).metadata.format_version
      = (exportRun rows t₂).metadata.format_version
  ∧ (exportRun rows t₁).metadata.format_version = "1.0"
  ∧ (exportRun rows t₁).metadata.generated_at = t₁ :=
  ⟨rfl, rfl, rfl, rfl, rfl, rfl, rfl, rfl⟩

/-- C7: an empty source produces zero page files, a search index whose five
facet mappings are all present but empty, and a manifest with zero total
pages and zero total items. -/
theorem c7_empty_source (t : String) :
    (exportRun ([] : List (RawRow Int)) t).pages = []
  ∧ (exportRun ([] : List (RawRow Int)) t).search_index.architects = []
  ∧ (exportRun ([] : List (RawRow Int)) t).search_index.years = []
  ∧ (exportRun ([] : List (RawRow Int)) t).search_index.categories = []
  ∧ (exportRun ([] : List (RawRow Int)) t).search_index.titles = []
  ∧ (exportRun ([] : List (RawRow Int)) t).search_index.addresses = []
  ∧ (exportRun ([] : List (RawRow Int)) t).metadata.total_pages = 0
  ∧ (exportRun ([] : List (RawRow Int)) t).metadata.total_items = 0 :=
  ⟨rfl, rfl, rfl, rfl, rfl, rfl, rfl, rfl⟩

/-- C1: with the fixed page size of 50, the number of pages is the ceiling
of total_count / 50; the pages, concatenated in page order, are exactly the
normalized source rows once each (no skip, no duplicate), in ascending id
order when the source rows are id-sorted (which the ORDER BY Z_PK query
guarantees); every page except possibly the last holds exactly 50 records;
and page index p is written to page_<p+1>.json carrying page number p+1. -/
theorem c1_pagination (rows : List (RawRow Int))
    (hsort : rows.Pairwise (fun a b => a.id < b.id)) :
    (export_pages rows).length = (rows.length + items_per_page - 1) / items_per_page
  ∧ ((export_pages rows).map (fun f => f.2.items)).flatten = rows.map normalizeRow
  ∧ (((export_pages rows).map (fun f => f.2.items)).flatten).Pairwise
      (fun a b => a.id < b.id)
  ∧ (∀ p, p + 1 < total_pages rows.length →
      (page_items rows p).length = items_per_page)
  ∧ (∀ p, (hp : p < (export_pages rows).length) →
      (export_pages rows).get ⟨p, hp⟩ = (page_file_name (p + 1), page_file rows p)
      ∧ ((export_pages rows).get ⟨p, hp⟩).2.page = p + 1) := by
  have hitems : (export_pages rows).map (fun f => f.2.items)
      = (List.range (total_pages rows.length)).map (fun p => page_items rows p) := by
    rw [export_pages, List.map_map]
    rfl
  have hflat : ((export_pages rows).map (fun f => f.2.items)).flatten
      = rows.map normalizeRow := by
    rw [hitems]
    exact all_items_eq rows
  refine ⟨?_, hflat, ?_, ?_, ?_⟩
  · simp [export_pages, total_pages]
  · rw [hflat]
    exact List.pairwise_map.mpr hsort
  · exact fun p hp => page_items_length rows p hp
  · intro p hp
    have hget : (export_pages rows).get ⟨p, hp⟩
        = (page_file_name (p + 1), page_file rows p) := by
      simp [export_pages]
    exact ⟨hget, by rw [hget]; rfl⟩

/-- C1 witness: a three-row sorted source fits in one page that contains
exactly the normalized rows in order. -/
theorem c1_pagination_witness :
    ((export_pages [sampleRow 1, emptyRow 2, sampleRow 3]).map
      (fun f => f.2.items)).flatten
    = [sampleRow 1, emptyRow 2, sampleRow 3].map normalizeRow :=
  (c1_pagination [sampleRow 1, emptyRow 2, sampleRow 3] (by decide)).2.1

/-- C8: the process exit code is 0 exactly when the export succeeds, and 1
exactly when any step fails (connection error, count error, any page query
or page write error, index write error, or metadata write error); each step
is evaluated once in program order with no retry, and the first failure
aborts the run. -/
theorem c8_exit_code (env : Env Int) :
    (mainExitCode env = 0 ∨ mainExitCode env = 1)
  ∧ (mainExitCode env = 0 ↔ (export_architecture_data env).success = true)
  ∧ (mainExitCode env = 0 ↔
      env.connectErr = none
      ∧ env.countErr = none
      ∧ (∀ p, p < total_pages env.rows.length →
          env.queryErr p = none ∧ env.pageWriteErr p = none)
      ∧ env.indexWriteErr = none ∧ env.metadataWriteErr = none) := by
  have hsucc : (export_architecture_data env).success = true ↔
      env.connectErr = none ∧ body_err env = none := by
    cases hc : env.connectErr with
    | some e => simp [export_architecture_data, hc]
    | none =>
      cases hb : body_err env with
      | some e => simp [export_architecture_data, hc, hb]
      | none => simp [export_architecture_data, hc, hb]
  refine ⟨?_, ?_, ?_⟩
  · by_cases h : (export_architecture_data env).success <;> simp [mainExitCode, h]
  · by_cases h : (export_architecture_data env).success <;> simp [mainExitCode, h]
  · constructor
    · intro h
      have hs : (export_architecture_data env).success = true := by
        by_cases hh : (export_architecture_data env).success
        · exact hh
        · simp [mainExitCode, hh] at h
      obtain ⟨hcon, hbody⟩ := hsucc.mp hs
      obtain ⟨h1, h2, h3, h4⟩ := (body_err_eq_none env).mp hbody
      exact ⟨hcon, h1, h2, h3, h4⟩
    · rintro ⟨hcon, h1, h2, h3, h4⟩
      have hbody : body_err env = none := (body_err_eq_none env).mpr ⟨h1, h2, h3, h4⟩
      have hs : (export_architecture_data env).success = true :=
        hsucc.mpr ⟨hcon, hbody⟩
      simp [mainExitCode, hs]

/-- C8 witness: a clean run over the empty source exits 0. -/
theorem c8_exit_code_witness : mainExitCode (cleanEnv []) = 0 :=
  ((c8_exit_code (cleanEnv [])).2.2).mpr
    ⟨rfl, rfl, fun _ _ => ⟨rfl, rfl⟩, rfl, rfl⟩

/-- C9: on every exit path entered after the connection opens successfully —
normal completion as well as an exception raised in any downstream step —
the finally clause closes the connection exactly once. -/
theorem c9_connection_release (env : Env Int) (h : env.connectErr = none) :
    (export_architecture_data env).closeCalls = 1 := by
  rw [export_architecture_data, h]
  cases hb : body_err env <;> rfl

/-- C9 witness: a failing metadata write still closes the connection exactly
once. -/
theorem c9_connection_release_witness :
    (export_architecture_data
      { cleanEnv [] with metadataWriteErr := some "disk full" }).closeCalls = 1 :=
  c9_connection_release { cleanEnv [] with metadataWriteErr := some "disk full" } rfl

/-! ## Helpers for id uniqueness and page counting -/

/-- In a list whose elements have pairwise distinct keys, equal keys force
equal elements. -/
lemma pairwise_key_inj {α β : Type} (f : α → β) :
    ∀ (l : List α), l.Pairwise (fun a b => f a ≠ f b) →
    ∀ a ∈ l, ∀ b ∈ l, f a = f b → a = b := by
  intro l hl
  induction l with
  | nil =>
    intro a ha
    cases ha
  | cons x l ih =>
    intro a ha b hb hab
    rcases List.pairwise_cons.mp hl with ⟨hx, hl2⟩
    rcases List.mem_cons.mp ha with ha1 | ha2 <;> rcases List.mem_cons.mp hb with hb1 | hb2
    · rw [ha1, hb1]
    · subst ha1
      exact absurd hab (hx b hb2)
    · subst hb1
      exact absurd hab.symm (hx a ha2)
    · exact ih hl2 a ha2 b hb2 hab

/-- Counting over a flattened list of lists sums the per-list counts. -/
lemma countP_flatten {α : Type} (L : List (List α)) (p : α → Bool) :
    L.flatten.countP p = (L.map (List.countP p)).sum := by
  induction L with
  | nil => simp
  | cons a L ih => simp [List.countP_append, ih]

/-- A list with pairwise distinct ids counts any present id exactly once. -/
lemma countP_id_eq_one (rows : List (RawRow Int)) (i : Int)
    (hids : rows.Pairwise (fun a b => a.id ≠ b.id))
    (hmem : ∃ r ∈ rows, r.id = i) :
    rows.countP (fun r => r.id == i) = 1 := by
  induction rows with
  | nil =>
    rcases hmem with ⟨r, hr, _⟩
    cases hr
  | cons x l ih =>
    rcases List.pairwise_cons.mp hids with ⟨hx, hl⟩
    rcases hmem with ⟨r, hr, hri⟩
    rcases List.mem_cons.mp hr with h1 | h2
    · subst h1
      rw [List.countP_cons]
      have hpx : (r.id == i) = true := by simp [hri]
      have hzero : l.countP (fun a => a.id == i) = 0 := by
        rw [List.countP_eq_zero]
        intro a ha
        have hne := hx a ha
        rw [hri] at hne
        simp [hne.symm]
      rw [hzero, hpx]
      rfl
    · have hxne : x.id ≠ r.id := hx r h2
      rw [List.countP_cons]
      have hpx : (x.id == i) = false := by
        rw [← hri]
        simp [hxne]
      rw [hpx, ih hl ⟨r, h2, hri⟩]
      rfl

/-- Appearance of an id anywhere in the five facet mappings of a search
index. -/
def inAnyFacet (si : SearchIndex) (i : Int) : Prop :=
    (∃ k, i ∈ lookupD si.architects k)
  ∨ (∃ k, i ∈ lookupD si.years k)
  ∨ (∃ k, i ∈ lookupD si.categories k)
  ∨ (∃ k, i ∈ lookupD si.titles k)
  ∨ (∃ k, i ∈ lookupD si.addresses k)

/-- C2 counterexample: a record whose title is the unknown-building
placeholder (here obtained from a NULL title) is nevertheless indexed in the
titles facet, under the 3-code-point slice of the placeholder, because the
title branch of the index builder has no placeholder check.  This refutes
the claim for the title facet. -/
theorem c2_counterexample :
    (normalizeRow (emptyRow 1)).title = "不明な建築物"
  ∧ (1 : Int) ∈ lookupD (build_search_index [normalizeRow (emptyRow 1)]).titles "不明な" := by
  decide

/-- C2 amended: for the architect and address facets, a record whose
normalized field equals that facet's placeholder string never appears under
any key of that facet's mapping (given the primary-key uniqueness the source
guarantees); the titles facet performs no such exclusion. -/
theorem c2_placeholder_exclusion (rows : List (RawRow Int))
    (hids : rows.Pairwise (fun a b => a.id ≠ b.id)) (row : RawRow Int)
    (hrow : row ∈ rows) :
    ((normalizeRow row).architect = "不明な建築家" →
      ∀ k, row.id ∉ lookupD (build_search_index (all_items rows)).architects k)
  ∧ ((normalizeRow row).address = "住所不明" →
      ∀ k, row.id ∉ lookupD (build_search_index (all_items rows)).addresses k) := by
  have hpw : (all_items rows).Pairwise (fun a b => a.id ≠ b.id) := by
    rw [all_items_eq]
    exact List.pairwise_map.mpr hids
  have hmem : normalizeRow row ∈ all_items rows := by
    rw [all_items_eq]
    exact List.mem_map_of_mem normalizeRow hrow
  constructor
  · intro hph k hin
    rw [lookupD_build_architects] at hin
    rcases (mem_contrib architectKeys (all_items rows) k row.id).mp hin with
      ⟨it2, hit2, hid2, hk2⟩
    have heq : it2 = normalizeRow row :=
      pairwise_key_inj (fun it : Item Int => it.id) _ hpw it2 hit2
        (normalizeRow row) hmem hid2
    rw [heq] at hk2
    rw [architectKeys, if_neg (by simp [hph])] at hk2
    cases hk2
  · intro hph k hin
    rw [lookupD_build_addresses] at hin
    rcases (mem_contrib addressKeys (all_items rows) k row.id).mp hin with
      ⟨it2, hit2, hid2, hk2⟩
    have heq : it2 = normalizeRow row :=
      pairwise_key_inj (fun it : Item Int => it.id) _ hpw it2 hit2
        (normalizeRow row) hmem hid2
    rw [heq] at hk2
    rw [addressKeys, if_neg (by simp [hph])] at hk2
    cases hk2

/-- C2 amended witness: the null-architect record with id 1 appears under no
architect key, here checked at a concrete key. -/
theorem c2_placeholder_exclusion_witness :
    (1 : Int) ∉ lookupD (build_search_index (all_items [emptyRow 1])).architects
      "tadao ando" :=
  (c2_placeholder_exclusion [emptyRow 1] (by decide) (emptyRow 1)
    (List.mem_cons_self _ _)).1 (by decide) "tadao ando"

/-- C5: the index is built with exactly the specified keys — full lowercase
architect name, decimal year string, 3-code-point slice of each
whitespace-split token of length at least 2 of the lowercase title, full
lowercase category, 5-code-point slice of the lowercase address (with the
truthiness and placeholder guards the code applies) — and the list under
each key collects the matching items' ids in processing order, one append
per derived key occurrence, with no deduplication. -/
theorem c5_search_index_keys (items : List (Item Int)) (k : String) :
    lookupD (build_search_index items).architects k = contrib architectKeys items k
  ∧ lookupD (build_search_index items).years k = contrib yearKeys items k
  ∧ lookupD (build_search_index items).categories k = contrib categoryKeys items k
  ∧ lookupD (build_search_index items).titles k = contrib titleKeys items k
  ∧ lookupD (build_search_index items).addresses k = contrib addressKeys items k
  ∧ (hasKey (build_search_index items).architects k = true ↔
      ∃ it ∈ items, k ∈ architectKeys it)
  ∧ (hasKey (build_search_index items).years k = true ↔
      ∃ it ∈ items, k ∈ yearKeys it)
  ∧ (hasKey (build_search_index items).categories k = true ↔
      ∃ it ∈ items, k ∈ categoryKeys it)
  ∧ (hasKey (build_search_index items).titles k = true ↔
      ∃ it ∈ items, k ∈ titleKeys it)
  ∧ (hasKey (build_search_index items).addresses k = true ↔
      ∃ it ∈ items, k ∈ addressKeys it) := by
  obtain ⟨h1, h2, h3, h4, h5⟩ := hasKey_build items k
  refine ⟨lookupD_build_architects items k, lookupD_build_years items k,
    lookupD_build_categories items k, lookupD_build_titles items k,
    lookupD_build_addresses items k, ?_, ?_, ?_, ?_, ?_⟩
  · rw [h1]
    simp [List.any_eq_true]
  · rw [h2]
    simp [List.any_eq_true]
  · rw [h3]
    simp [List.any_eq_true]
  · rw [h4]
    simp [List.any_eq_true]
  · rw [h5]
    simp [List.any_eq_true]

/-- C5 witness: the characterization evaluated on one populated record at
the lower-cased architect key. -/
theorem c5_search_index_keys_witness :
    lookupD (build_search_index [normalizeRow (sampleRow 1)]).architects "tadao ando"
      = contrib architectKeys [normalizeRow (sampleRow 1)] "tadao ando" :=
  (c5_search_index_keys [normalizeRow (sampleRow 1)] "tadao ando").1

/-- C10: every id in any facet of the search index belongs to a record that
is contained in exactly one exported page (and exactly once there), and a
record with an absent category or absent year never appears in the
categories or years facet respectively. -/
theorem c10_index_refs_pages (rows : List (RawRow Int))
    (hids : rows.Pairwise (fun a b => a.id ≠ b.id)) :
    (∀ i : Int, inAnyFacet (build_search_index (all_items rows)) i →
      ((export_pages rows).map
        (fun f => (f.2.items.filter (fun it => it.id == i)).length)).sum = 1)
  ∧ (∀ it ∈ all_items rows, it.category = none →
      ∀ k, it.id ∉ lookupD (build_search_index (all_items rows)).categories k)
  ∧ (∀ it ∈ all_items rows, it.year = none →
      ∀ k, it.id ∉ lookupD (build_search_index (all_items rows)).years k) := by
  have hpw : (all_items rows).Pairwise (fun a b => a.id ≠ b.id) := by
    rw [all_items_eq]
    exact List.pairwise_map.mpr hids
  have hitems : (export_pages rows).map (fun f => f.2.items)
      = (List.range (total_pages rows.length)).map (fun p => page_items rows p) := by
    rw [export_pages, List.map_map]
    rfl
  refine ⟨?_, ?_, ?_⟩
  · intro i hin
    have hex : ∃ it ∈ all_items rows, it.id = i := by
      rcases hin with h | h | h | h | h
      · rcases h with ⟨k, hk⟩
        rw [lookupD_build_architects] at hk
        rcases (mem_contrib _ _ _ _).mp hk with ⟨it, hmem, hid, _⟩
        exact ⟨it, hmem, hid⟩
      · rcases h with ⟨k, hk⟩
        rw [lookupD_build_years] at hk
        rcases (mem_contrib _ _ _ _).mp hk with ⟨it, hmem, hid, _⟩
        exact ⟨it, hmem, hid⟩
      · rcases h with ⟨k, hk⟩
        rw [lookupD_build_categories] at hk
        rcases (mem_contrib _ _ _ _).mp hk with ⟨it, hmem, hid, _⟩
        exact ⟨it, hmem, hid⟩
      · rcases h with ⟨k, hk⟩
        rw [lookupD_build_titles] at hk
        rcases (mem_contrib _ _ _ _).mp hk with ⟨it, hmem, hid, _⟩
        exact ⟨it, hmem, hid⟩
      · rcases h with ⟨k, hk⟩
        rw [lookupD_build_addresses] at hk
        rcases (mem_contrib _ _ _ _).mp hk with ⟨it, hmem, hid, _⟩
        exact ⟨it, hmem, hid⟩
    have hsum : ((export_pages rows).map
        (fun f => (f.2.items.filter (fun it => it.id == i)).length)).sum
        = (all_items rows).countP (fun it => it.id == i) := by
      have hc : (export_pages rows).map
          (fun f => (f.2.items.filter (fun it => it.id == i)).length)
          = ((export_pages rows).map (fun f => f.2.items)).map
            (List.countP (fun it => it.id == i)) := by
        rw [List.map_map]
        refine List.map_congr_left ?_
        intro f _
        simp [Function.comp, List.countP_eq_length_filter]
      rw [hc, hitems, ← countP_flatten]
      rfl
    rw [hsum]
    have hray : ∃ r ∈ rows, r.id = i := by
      rcases hex with ⟨it, hmem, hid⟩
      rw [all_items_eq] at hmem
      rcases List.mem_map.mp hmem with ⟨r, hr, hre⟩
      refine ⟨r, hr, ?_⟩
      rw [← hre] at hid
      exact hid
    have : (all_items rows).countP (fun it => it.id == i)
        = rows.countP (fun r => r.id == i) := by
      rw [all_items_eq, List.countP_map]
      rfl
    rw [this]
    exact countP_id_eq_one rows i hids hray
  · intro it hit hcat k hin
    rw [lookupD_build_categories] at hin
    rcases (mem_contrib categoryKeys (all_items rows) k it.id).mp hin with
      ⟨it2, hit2, hid2, hk2⟩
    have hequ : it2 = it :=
      pairwise_key_inj (fun x : Item Int => x.id) _ hpw it2 hit2 it hit hid2
    rw [hequ] at hk2
    rw [categoryKeys, hcat] at hk2
    cases hk2
  · intro it hit hyear k hin
    rw [lookupD_build_years] at hin
    rcases (mem_contrib yearKeys (all_items rows) k it.id).mp hin with
      ⟨it2, hit2, hid2, hk2⟩
    have hequ : it2 = it :=
      pairwise_key_inj (fun x : Item Int => x.id) _ hpw it2 hit2 it hit hid2
    rw [hequ] at hk2
    rw [yearKeys, hyear] at hk2
    cases hk2

/-- C10 witness: with one fully populated record, the id referenced by the
architects facet occurs in exactly one page, once. -/
theorem c10_index_refs_pages_witness :
    ((export_pages [sampleRow 1]).map
      (fun f => (f.2.items.filter (fun it => it.id == (1 : Int))).length)).sum = 1 :=
  (c10_index_refs_pages [sampleRow 1] (by decide)).1 1
    (Or.inl ⟨"tadao ando", by decide⟩)

end ArchiSite
